import Mathlib

/-!
Verification of the TFTP server implementation (package `tftp`): a shallow
embedding of the packet codec (`tftp.go`) and of the per-session transfer
loops (`server.go`: `Serve`, `handleRead`, `handleWrite`) over byte lists,
together with theorems settling the specification's claims.

Bytes are modelled as `Fin 256`; Go strings appearing in packets are byte
sequences.  Go `uint16` fields are `Nat` values kept below `65536`, with
wraparound written explicitly as `% 65536`.  Fallible decoders return
`Option`/`Except`.  Stateful loops are embedded as recursive functions over an
explicit list of receive events.
-/

namespace TFTP

/-- One byte, as on the wire. -/
abbrev Byte := Fin 256

/-- Build a byte from a natural number (mod 256), as Go's byte conversions do. -/
def mkB (n : Nat) : Byte := ⟨n % 256, Nat.mod_lt _ (by norm_num)⟩

/-- `DatagramSize = 516`: the whole TFTP datagram ceiling from `tftp.go`. -/
def DatagramSize : Nat := 516

/-- `BlockSize = DatagramSize - 4 = 512`: data bytes per packet. -/
def BlockSize : Nat := 512

/-- Big-endian 2-byte encoding of a 16-bit value, as `binary.Write` emits it. -/
def u16be (x : Nat) : List Byte := [mkB (x / 256), mkB x]

/-- Read a big-endian `uint16` from the front of a buffer, as `binary.Read`
does; fails (like `io.EOF`) when fewer than two bytes remain. -/
def readU16 : List Byte → Option (Nat × List Byte)
  | a :: b :: rest => some (a.val * 256 + b.val, rest)
  | _ => none

/-- `bytes.Buffer.ReadString(0)`: the bytes read (including the delimiter when
found), the remaining buffer, and an error flag that is set exactly when no
delimiter was found (Go returns `io.EOF` in that case). -/
def readString0 : List Byte → List Byte × List Byte × Bool
  | [] => ([], [], true)
  | c :: rest =>
    if c.val = 0 then ([c], rest, false)
    else
      let r := readString0 rest
      (c :: r.1, r.2.1, r.2.2)

/-- `strings.TrimRight(s, "\x00")`: strip all trailing NUL bytes. -/
def trimRight0 (s : List Byte) : List Byte :=
  (s.reverse.dropWhile (fun c => c.val == 0)).reverse

/-- Byte-wise ASCII lowercasing; agrees with Go's `strings.ToLower` on the
ASCII byte sequences the mode field carries. -/
def lowerB (c : Byte) : Byte :=
  if 65 ≤ c.val ∧ c.val ≤ 90 then mkB (c.val + 32) else c

/-- Lowercase a byte string. -/
def lowerBytes (s : List Byte) : List Byte := s.map lowerB

/-- The byte string "octet". -/
def octetB : List Byte := [mkB 111, mkB 99, mkB 116, mkB 101, mkB 116]

/-- Error sites of the request decoders, one constructor per `return`-an-error
site in `ReadReq.UnmarshalBinary` / `WriteReq.UnmarshalBinary`. -/
inductive ReqErr
  | readErr | wrongOpcode | fnReadErr | modeReadErr | emptyMode | modeNotOctet
  deriving DecidableEq, Repr

/-- `ReadReq`: filename and mode, as byte strings. -/
structure ReadReq where
  filename : List Byte
  mode : List Byte
  deriving DecidableEq, Repr

/-- `WriteReq`: filename and mode, as byte strings. -/
structure WriteReq where
  filename : List Byte
  mode : List Byte
  deriving DecidableEq, Repr

/-- `ReadReq.MarshalBinary`: opcode 1, filename, NUL, mode (defaulting to
"octet" when empty), NUL. -/
def readReqMarshal (q : ReadReq) : List Byte :=
  let m := if q.mode = [] then octetB else q.mode
  u16be 1 ++ q.filename ++ [mkB 0] ++ m ++ [mkB 0]

/-- `ReadReq.UnmarshalBinary`: opcode must be 1; filename and mode are
NUL-terminated and NUL-trimmed; the mode must be nonempty and lowercase to
"octet". -/
def readReqUnmarshal (p : List Byte) : Except ReqErr ReadReq :=
  match readU16 p with
  | none => .error .readErr
  | some (code, r0) =>
    if code ≠ 1 then .error .wrongOpcode
    else
      let f := readString0 r0
      if f.2.2 then .error .fnReadErr
      else
        let fn := trimRight0 f.1
        let m := readString0 f.2.1
        if m.2.2 then .error .modeReadErr
        else
          let mode := trimRight0 m.1
          if mode.length = 0 then .error .emptyMode
          else if lowerBytes mode ≠ octetB then .error .modeNotOctet
          else .ok ⟨fn, mode⟩

/-- `WriteReq.UnmarshalBinary`: opcode must be 2; the `ReadString` errors are
ignored by the Go code, and the trimmed mode must equal `"octet"` exactly
(no case normalisation in this decoder). -/
def writeReqUnmarshal (p : List Byte) : Except ReqErr WriteReq :=
  match readU16 p with
  | none => .error .readErr
  | some (code, r0) =>
    if code ≠ 2 then .error .wrongOpcode
    else
      let f := readString0 r0
      let fn := trimRight0 f.1
      let m := readString0 f.2.1
      let mode := trimRight0 m.1
      if mode ≠ octetB then .error .modeNotOctet
      else .ok ⟨fn, mode⟩

/-- The `Data` packet state: block counter and the unread remainder of the
payload reader. -/
structure DataP where
  block : Nat
  payload : List Byte
  deriving DecidableEq, Repr

/-- `Data.MarshalBinary`: increments the receiver's block counter (a `uint16`,
hence mod 65536) before writing opcode 3, the new block number, and up to 512
bytes copied off the payload reader.  Returns the mutated packet state and the
wire bytes. -/
def dataMarshal (d : DataP) : DataP × List Byte :=
  let b := (d.block + 1) % 65536
  (⟨b, d.payload.drop BlockSize⟩, u16be 3 ++ u16be b ++ d.payload.take BlockSize)

/-- `Data.UnmarshalBinary`: rejects buffers shorter than 4 or longer than 516
bytes, then a non-3 opcode; otherwise yields the block number and the whole
tail `p[4:]` as payload. -/
def dataUnmarshal (p : List Byte) : Option (Nat × List Byte) :=
  if p.length < 4 ∨ DatagramSize < p.length then none
  else
    match p with
    | a :: b :: c :: d :: rest =>
      if a.val * 256 + b.val ≠ 3 then none
      else some (c.val * 256 + d.val, rest)
    | _ => none

/-- `Ack.MarshalBinary`: opcode 4 then the block number. -/
def ackMarshal (b : Nat) : List Byte := u16be 4 ++ u16be b

/-- `Ack.UnmarshalBinary`: opcode must be 4, then a 2-byte block number read
from the remaining reader; trailing bytes are ignored. -/
def ackUnmarshal (p : List Byte) : Option Nat :=
  match readU16 p with
  | none => none
  | some (code, r) =>
    if code ≠ 4 then none
    else
      match readU16 r with
      | none => none
      | some (b, _) => some b

/-- `Err` packet: error code and human-readable message. -/
structure ErrP where
  code : Nat
  msg : List Byte
  deriving DecidableEq, Repr

/-- `Err.MarshalBinary`: opcode 5, error code, message, NUL. -/
def errMarshal (e : ErrP) : List Byte :=
  u16be 5 ++ u16be e.code ++ e.msg ++ [mkB 0]

/-- `Err.UnmarshalBinary`: opcode must be 5; reads the code and the
NUL-terminated, NUL-trimmed message; fails when no terminator is found. -/
def errUnmarshal (p : List Byte) : Option ErrP :=
  match readU16 p with
  | none => none
  | some (op, r0) =>
    if op ≠ 5 then none
    else
      match readU16 r0 with
      | none => none
      | some (c, r1) =>
        let m := readString0 r1
        if m.2.2 then none else some ⟨c, trimRight0 m.1⟩

/-! ## Session loops

`handleRead` and `handleWrite` interact with a UDP socket.  We embed them as
recursive functions over an explicit list of receive events; each `conn.Read`
consumes one event.  The 516-byte receive buffer is threaded through
explicitly, because the Go code reuses it across reads: an incoming datagram
only overwrites its prefix, and the decoders are applied to the full buffer. -/

/-- One outcome of a session's `conn.Read`: a timeout, or a datagram. -/
inductive RecvEvent
  | timeout
  | pkt (dg : List Byte)
  deriving DecidableEq, Repr

/-- How a download session run ended. -/
inductive ReadOutcome
  | done
  | retriesExhausted
  | gotError
  | starved
  deriving DecidableEq, Repr

/-- Receiving a datagram overwrites the prefix of the persistent 516-byte
receive buffer; the stale suffix is kept. -/
def updateBuf (buf dg : List Byte) : List Byte :=
  dg.take DatagramSize ++ buf.drop (min dg.length DatagramSize)

/-- A 516-byte all-zero buffer, as `make([]byte, DatagramSize)` yields. -/
def zeroBuf : List Byte := List.replicate DatagramSize (mkB 0)

/-- The body of `handleRead`'s nested loops.  `d`/`wire` are the current
data-packet state and its wire bytes (Go marshals once per `NEXTPACKET`
iteration), `i` the remaining `RETRY` counter, `buf` the receive buffer.
Each iteration writes `wire`, then consumes one receive event:
a timeout retries; a matching Ack either re-enters `NEXTPACKET` (full wire)
or ends the session (short wire); a mismatched Ack or an undecodable
datagram falls through to the next `RETRY` iteration; a decoded Error packet
terminates.  Returns the datagrams sent and the outcome. -/
def runRead (R : Nat) (d : DataP) (wire : List Byte) (i : Nat) (buf : List Byte) :
    List RecvEvent → List (List Byte) × ReadOutcome :=
  fun events =>
  match i, events with
  | 0, _ => ([], .retriesExhausted)
  | _ + 1, [] => ([wire], .starved)
  | i' + 1, .timeout :: evs =>
    let r := runRead R d wire i' buf evs
    (wire :: r.1, r.2)
  | i' + 1, .pkt dg :: evs =>
    let buf2 := updateBuf buf dg
    match ackUnmarshal buf2 with
    | some a =>
      if a = d.block then
        if wire.length = DatagramSize then
          let m := dataMarshal d
          let r := runRead R m.1 m.2 R buf2 evs
          (wire :: r.1, r.2)
        else ([wire], .done)
      else
        let r := runRead R d wire i' buf2 evs
        (wire :: r.1, r.2)
    | none =>
      match errUnmarshal buf2 with
      | some _ => ([wire], .gotError)
      | none =>
        let r := runRead R d wire i' buf2 evs
        (wire :: r.1, r.2)

/-- One `NEXTPACKET` iteration entered with data-packet state `d`: marshal
(incrementing the block) and run the `RETRY` loop with a full budget. -/
def runReadFrom (R : Nat) (d : DataP) (buf : List Byte)
    (events : List RecvEvent) : List (List Byte) × ReadOutcome :=
  let m := dataMarshal d
  runRead R m.1 m.2 R buf events

/-- The whole of `handleRead` for a given payload: the data packet starts with
block counter 0 (so the first marshal sends block 1) and a fresh zeroed
receive buffer. -/
def runReadEntry (R : Nat) (payload : List Byte)
    (events : List RecvEvent) : List (List Byte) × ReadOutcome :=
  runReadFrom R ⟨0, payload⟩ zeroBuf events

/-- How an upload session run ended.  `panicked` models the Go runtime panic
raised by the negative slice bound in `data[:n-4]` when `n < 4`. -/
inductive UploadOutcome
  | ok
  | gotError
  | badData
  | panicked
  | starved
  deriving DecidableEq, Repr

/-- The receive loop of `handleWrite`: consumes one datagram per iteration,
decoding from the full (partially stale) 516-byte buffer.  A decoded Error
terminates; a failed Data decode terminates; otherwise the first `n-4` bytes
of the decoded payload are appended to the file (a panic when `n < 4`), an
Ack with the decoded block number is sent, and the loop continues exactly
when the received datagram filled the whole buffer (`n = 516`).
Returns (datagrams sent by the loop in order, bytes written to the file in
order, outcome). -/
def uploadLoop (buf : List Byte) :
    List (List Byte) → List (List Byte) × List Byte × UploadOutcome
  | [] => ([], [], .starved)
  | dg :: evs =>
    match errUnmarshal (updateBuf buf dg) with
    | some _ => ([], [], .gotError)
    | none =>
      match dataUnmarshal (updateBuf buf dg) with
      | none => ([], [], .badData)
      | some (blk, payload) =>
        if min dg.length DatagramSize < 4 then ([], [], .panicked)
        else if min dg.length DatagramSize = DatagramSize then
          let r := uploadLoop (updateBuf buf dg) evs
          (ackMarshal blk :: r.1,
           payload.take (min dg.length DatagramSize - 4) ++ r.2.1, r.2.2)
        else ([ackMarshal blk],
          payload.take (min dg.length DatagramSize - 4), .ok)

/-- The whole of `handleWrite` after dialing: it unconditionally sends the
zero-value Ack (block 0) first, then creates the destination file and runs the
receive loop on a fresh zeroed buffer. -/
def uploadRun (events : List (List Byte)) :
    List (List Byte) × List Byte × UploadOutcome :=
  let r := uploadLoop zeroBuf events
  (ackMarshal 0 :: r.1, r.2)

/-- The path `handleWrite` hands to `os.Create` (create-or-truncate): the
requested filename itself; the server's `WriteDir` field does not appear. -/
def destPath (writeDir : List Byte) (w : WriteReq) : List Byte :=
  w.filename

/-- What `Serve` spawns for one inbound datagram. -/
inductive Dispatch
  | readSession (q : ReadReq)
  | writeSession (w : WriteReq)
  | dropped
  deriving DecidableEq, Repr

/-- `Serve` reads each datagram into a fresh zeroed 516-byte buffer and hands
the decoders the whole buffer. -/
def padBuf (dg : List Byte) : List Byte :=
  dg.take DatagramSize ++ List.replicate (DatagramSize - dg.length) (mkB 0)

/-- The rejection message `Serve` sends for a write request when writes are
disabled ("We don't accept write requests"). -/
def rejectMsg : List Byte :=
  [mkB 87, mkB 101, mkB 32, mkB 100, mkB 111, mkB 110, mkB 39, mkB 116,
   mkB 32, mkB 97, mkB 99, mkB 99, mkB 101, mkB 112, mkB 116, mkB 32,
   mkB 119, mkB 114, mkB 105, mkB 116, mkB 101, mkB 32, mkB 114, mkB 101,
   mkB 113, mkB 117, mkB 101, mkB 115, mkB 116, mkB 115]

/-- One iteration of `Serve`'s dispatch loop on an inbound datagram: try the
ReadReq decoder, then the WriteReq decoder.  On a write request with writes
disabled, an IllegalOperation (code 4) Error packet is sent on the listening
socket — and the upload session is spawned regardless.  Returns the datagrams
sent on the listening socket and what was spawned. -/
def serveStep (writeAllowed : Bool) (dg : List Byte) :
    List (List Byte) × Dispatch :=
  let buf := padBuf dg
  match readReqUnmarshal buf with
  | .ok q => ([], .readSession q)
  | .error _ =>
    match writeReqUnmarshal buf with
    | .ok w =>
      ((if writeAllowed then [] else [errMarshal ⟨4, rejectMsg⟩]), .writeSession w)
    | .error _ => ([], .dropped)

/-! ## Specification-side definitions and event streams -/

/-- The 2-byte big-endian operation code at the head of a wire buffer. -/
def wireOpcode (p : List Byte) : Nat :=
  match p with
  | a :: b :: _ => a.val * 256 + b.val
  | _ => 0

/-- The 2-byte big-endian block number of a Data wire buffer (bytes 2 and 3). -/
def wireBlock (p : List Byte) : Nat := wireOpcode (p.drop 2)

/-- The Data decode contract in the specification's words: a buffer shorter
than 4 bytes or longer than 516 bytes is malformed; a leading opcode other
than the Data opcode is rejected; every other buffer of length L succeeds,
exposing exactly the trailing L−4 bytes as the block payload with no further
length check. -/
def dataDecodeSpec (p : List Byte) : Option (Nat × List Byte) :=
  if p.length < 4 ∨ 516 < p.length then none
  else if wireOpcode p ≠ 3 then none
  else some (wireBlock p, p.drop 4)

/-- The event stream of a fully acknowledged download: starting from block
counter `b`, the client acks each successive block number, `k` times. -/
def ackEventsAux : Nat → Nat → List RecvEvent
  | 0, _ => []
  | k + 1, b => .pkt (ackMarshal ((b + 1) % 65536)) :: ackEventsAux k ((b + 1) % 65536)

/-- The all-acks event stream for serving a whole payload `p`: one ack per
block, `p.length / 512 + 1` blocks in total. -/
def ackEvents (p : List Byte) : List RecvEvent :=
  ackEventsAux (p.length / 512 + 1) 0

/-- The Data datagrams a fully acknowledged download sends: `k` packets
starting from block counter `b`, chunking `p` into 512-byte blocks. -/
def dataWires : Nat → Nat → List Byte → List (List Byte)
  | 0, _, _ => []
  | k + 1, b, p =>
    (u16be 3 ++ u16be ((b + 1) % 65536) ++ p.take BlockSize) ::
      dataWires k ((b + 1) % 65536) (p.drop BlockSize)

/-! ## Concrete inputs used by counterexamples and witnesses -/

/-- The one-byte filename "f". -/
def fnF : List Byte := [mkB 102]

/-- A ReadRequest wire buffer with filename "f" and the given mode. -/
def rrqWire (m : List Byte) : List Byte :=
  [mkB 0, mkB 1, mkB 102, mkB 0] ++ m ++ [mkB 0]

/-- A WriteRequest wire buffer with filename "f" and the given mode. -/
def wrqWire (m : List Byte) : List Byte :=
  [mkB 0, mkB 2, mkB 102, mkB 0] ++ m ++ [mkB 0]

/-- The byte string "OCTET". -/
def mOCTET : List Byte := [mkB 79, mkB 67, mkB 84, mkB 69, mkB 84]

/-- The byte string "Octet". -/
def mOctet : List Byte := [mkB 79, mkB 99, mkB 116, mkB 101, mkB 116]

/-- The byte string "netascii". -/
def mNetascii : List Byte :=
  [mkB 110, mkB 101, mkB 116, mkB 97, mkB 115, mkB 99, mkB 105, mkB 105]

/-- The byte string "MAIL". -/
def mMAIL : List Byte := [mkB 77, mkB 65, mkB 73, mkB 76]

/-- The byte string "y.bin". -/
def yBin : List Byte := [mkB 121, mkB 46, mkB 98, mkB 105, mkB 110]

/-- The byte string "/data". -/
def slashData : List Byte := [mkB 47, mkB 100, mkB 97, mkB 116, mkB 97]

/-- A WriteRequest wire buffer with filename "y.bin" and mode "octet". -/
def wrqYBin : List Byte :=
  [mkB 0, mkB 2] ++ yBin ++ [mkB 0] ++ octetB ++ [mkB 0]

/-- A full 516-byte valid Data datagram: block 1 and 512 payload bytes. -/
def fullDataDg : List Byte :=
  [mkB 0, mkB 3, mkB 0, mkB 1] ++ List.replicate BlockSize (mkB 9)

/-- A 2-byte runt datagram whose bytes happen to equal the Data opcode. -/
def runtDg : List Byte := [mkB 0, mkB 3]

/-- A 520-byte payload (one full block plus 8 bytes). -/
def wp520 : List Byte := List.replicate 520 (mkB 7)

/-- A 512-byte payload (exactly one full block). -/
def wp512 : List Byte := List.replicate 512 (mkB 7)

/-! ## Helper lemmas -/

theorem dropWhile_nonzero (l : List Byte) (h : ∀ c ∈ l, c.val ≠ 0) :
    l.dropWhile (fun c => c.val == 0) = l := by
  cases l with
  | nil => rfl
  | cons c t =>
    have hc : (c.val == 0) = false := by simpa using h c (by simp)
    simp [List.dropWhile_cons, hc]

theorem trimRight0_append (s : List Byte) (h : ∀ c ∈ s, c.val ≠ 0) :
    trimRight0 (s ++ [mkB 0]) = s := by
  have h2 : ∀ c ∈ s.reverse, c.val ≠ 0 := fun c hc => h c (List.mem_reverse.mp hc)
  simp [trimRight0, List.dropWhile_cons, mkB, dropWhile_nonzero _ h2]

theorem readString0_append (s rest : List Byte) (h : ∀ c ∈ s, c.val ≠ 0) :
    readString0 (s ++ mkB 0 :: rest) = (s ++ [mkB 0], rest, false) := by
  induction s with
  | nil => simp [readString0, mkB]
  | cons c t ih =>
    have hc : c.val ≠ 0 := h c (by simp)
    simp [readString0, hc, ih (fun x hx => h x (by simp [hx]))]

theorem readU16_u16be (x : Nat) (hx : x < 65536) (rest : List Byte) :
    readU16 (u16be x ++ rest) = some (x, rest) := by
  simp [readU16, u16be, mkB]
  omega

instance {ε α : Type} [DecidableEq ε] [DecidableEq α] :
    DecidableEq (Except ε α) := fun x y =>
  match x, y with
  | .ok a, .ok b =>
    if h : a = b then .isTrue (by rw [h]) else .isFalse (by simp [h])
  | .error a, .error b =>
    if h : a = b then .isTrue (by rw [h]) else .isFalse (by simp [h])
  | .ok _, .error _ => .isFalse (by simp)
  | .error _, .ok _ => .isFalse (by simp)

theorem rrq_fails_of_wrq_ok (p : List Byte) (w : WriteReq)
    (h : writeReqUnmarshal p = .ok w) :
    readReqUnmarshal p = .error ReqErr.wrongOpcode := by
  unfold writeReqUnmarshal at h
  unfold readReqUnmarshal
  match hr : readU16 p with
  | none => simp [hr] at h
  | some (code, r0) =>
    simp only [hr] at h ⊢
    by_cases hc : code = 2
    · subst hc; simp
    · simp [hc] at h

/-- C7: `Data.UnmarshalBinary` realises the specified decode contract: reject
buffers shorter than 4 or longer than 516 bytes as malformed, reject a leading
opcode other than the Data opcode, and otherwise succeed, exposing exactly the
trailing L−4 bytes as the block payload with no further length check. -/
theorem c7_data_decode_contract (p : List Byte) :
    dataUnmarshal p = dataDecodeSpec p := by
  by_cases hlen : p.length < 4 ∨ 516 < p.length
  · unfold dataUnmarshal dataDecodeSpec DatagramSize
    rw [if_pos hlen, if_pos hlen]
  · unfold dataUnmarshal dataDecodeSpec DatagramSize
    rw [if_neg hlen, if_neg hlen]
    match p, hlen with
    | a :: b :: c :: d :: rest, _ => simp [wireOpcode, wireBlock]
    | [], hlen => exact absurd (Or.inl (by norm_num)) hlen
    | [_], hlen => exact absurd (Or.inl (by norm_num)) hlen
    | [_, _], hlen => exact absurd (Or.inl (by norm_num)) hlen
    | [_, _, _], hlen => exact absurd (Or.inl (by norm_num)) hlen

/-- C2 (counterexample): decoding a WriteRequest whose mode is "OCTET" fails —
`WriteReq.UnmarshalBinary` compares the mode against "octet" literally, with
no case normalisation — refuting the claim that it succeeds. -/
theorem c2_wrq_uppercase_fails :
    writeReqUnmarshal (wrqWire mOCTET) = .error ReqErr.modeNotOctet := by decide

/-- C2 (amended): ReadRequest mode validation is case-insensitive — "octet",
"OCTET" and "Octet" all decode, while "netascii", "MAIL" and the empty mode
fail with a mode error; WriteRequest decoding accepts only the exact
lowercase "octet" and also rejects "OCTET" and "Octet" with a mode error. -/
theorem c2_mode_validation :
    readReqUnmarshal (rrqWire octetB) = .ok ⟨fnF, octetB⟩ ∧
    readReqUnmarshal (rrqWire mOCTET) = .ok ⟨fnF, mOCTET⟩ ∧
    readReqUnmarshal (rrqWire mOctet) = .ok ⟨fnF, mOctet⟩ ∧
    readReqUnmarshal (rrqWire mNetascii) = .error ReqErr.modeNotOctet ∧
    readReqUnmarshal (rrqWire mMAIL) = .error ReqErr.modeNotOctet ∧
    readReqUnmarshal (rrqWire []) = .error ReqErr.emptyMode ∧
    writeReqUnmarshal (wrqWire octetB) = .ok ⟨fnF, octetB⟩ ∧
    writeReqUnmarshal (wrqWire mOCTET) = .error ReqErr.modeNotOctet ∧
    writeReqUnmarshal (wrqWire mOctet) = .error ReqErr.modeNotOctet ∧
    writeReqUnmarshal (wrqWire mNetascii) = .error ReqErr.modeNotOctet ∧
    writeReqUnmarshal (wrqWire mMAIL) = .error ReqErr.modeNotOctet ∧
    writeReqUnmarshal (wrqWire []) = .error ReqErr.modeNotOctet := by decide

/-- C1 (counterexample): `Data.MarshalBinary` increments the block number
before writing, so decoding the encoded bytes of the packet `{Block := 5,
Payload := [7]}` yields block 6, not the original packet. -/
theorem c1_data_roundtrip_fails :
    dataUnmarshal (dataMarshal (DataP.mk 5 [mkB 7])).2 = some (6, [mkB 7]) ∧
    dataUnmarshal (dataMarshal (DataP.mk 5 [mkB 7])).2 ≠ some (5, [mkB 7]) := by
  decide

/-- C8: `handleWrite` opens the destination at `wrq.Filename` itself — the
configured `WriteDir` ("/data" here) has no influence on the path, and the
path for "y.bin" does not lie inside "/data". -/
theorem c8_writeDir_ignored :
    (∀ wd wd2 : List Byte, ∀ w : WriteReq, destPath wd w = destPath wd2 w) ∧
    destPath slashData (WriteReq.mk yBin octetB) = yBin ∧
    ¬ ∃ r, destPath slashData (WriteReq.mk yBin octetB) = slashData ++ r := by
  refine ⟨fun _ _ _ => rfl, rfl, ?_⟩
  rintro ⟨r, h⟩
  simp [destPath, yBin, slashData, mkB] at h

set_option maxRecDepth 100000 in
/-- C10: the upload loop decodes every received datagram from the full fixed
516-byte buffer, so the Data decoder's length bounds never reject there (only
the opcode can); and on the reachable trace "full valid Data datagram, then a
2-byte runt whose bytes equal the Data opcode", the write of `data[:n-4]`
panics on a negative slice bound. -/
theorem c10_stale_buffer_panic :
    (∀ buf : List Byte, buf.length = DatagramSize →
      (dataUnmarshal buf = none ↔ wireOpcode buf ≠ 3)) ∧
    (uploadRun [fullDataDg, runtDg]).2.2 = .panicked := by
  constructor
  · intro buf hlen
    match buf, hlen with
    | a :: b :: c :: d :: rest, hlen =>
      have hneg : ¬((a :: b :: c :: d :: rest).length < 4 ∨
          516 < (a :: b :: c :: d :: rest).length) := by
        rw [hlen]; simp [DatagramSize]
      unfold dataUnmarshal DatagramSize
      rw [if_neg hneg]
      by_cases hop : a.val * 256 + b.val = 3
      · simp [wireOpcode, hop]
      · simp [wireOpcode, hop]
    | [], hlen => simp [DatagramSize] at hlen
    | [_], hlen => simp [DatagramSize] at hlen
    | [_, _], hlen => simp [DatagramSize] at hlen
    | [_, _, _], hlen => simp [DatagramSize] at hlen
  · decide

set_option maxRecDepth 100000 in
/-- C10 witness: the first part instantiated at the concrete full Data
datagram, which has length 516. -/
theorem c10_stale_buffer_panic_witness :
    fullDataDg.length = DatagramSize ∧
    (dataUnmarshal fullDataDg = none ↔ wireOpcode fullDataDg ≠ 3) :=
  ⟨by decide, c10_stale_buffer_panic.1 fullDataDg (by decide)⟩

set_option maxRecDepth 100000 in
/-- C3 (counterexample): with writes disabled, the dispatcher sends the
IllegalOperation Error packet on the listening socket and still spawns the
upload session — but that session's very first action is to send Ack(0),
refuting "the launched session never sends the Ack with block number 0". -/
theorem c3_ack0_is_sent :
    serveStep false wrqYBin =
      ([errMarshal (ErrP.mk 4 rejectMsg)],
        .writeSession (WriteReq.mk yBin octetB)) ∧
    (uploadRun []).1 = [ackMarshal 0] := by decide

/-- C3 (amended): when a decodable WriteRequest arrives with writes disabled,
the dispatcher sends an IllegalOperation Error packet to the requester on the
listening socket and still launches the Upload session; that session's first
sent packet is the Ack with block number 0 (sent unconditionally, before any
data exchange). -/
theorem c3_reject_then_launch (dg : List Byte) (w : WriteReq)
    (h : writeReqUnmarshal (padBuf dg) = .ok w) :
    serveStep false dg =
      ([errMarshal (ErrP.mk 4 rejectMsg)], .writeSession w) ∧
    ∀ evs, (uploadRun evs).1.head? = some (ackMarshal 0) := by
  constructor
  · simp [serveStep, rrq_fails_of_wrq_ok _ _ h, h]
  · intro evs; rfl

set_option maxRecDepth 100000 in
/-- C3 witness: the amended claim at the concrete WriteRequest datagram for
"y.bin"/"octet". -/
theorem c3_reject_then_launch_witness :
    writeReqUnmarshal (padBuf wrqYBin) = .ok (WriteReq.mk yBin octetB) ∧
    (serveStep false wrqYBin =
      ([errMarshal (ErrP.mk 4 rejectMsg)],
        .writeSession (WriteReq.mk yBin octetB)) ∧
     ∀ evs, (uploadRun evs).1.head? = some (ackMarshal 0)) :=
  ⟨by decide, c3_reject_then_launch wrqYBin _ (by decide)⟩

theorem runRead_sends_first (R : Nat) (d : DataP) (wire buf : List Byte)
    (i : Nat) (evs : List RecvEvent) :
    ∃ t, (runRead R d wire (i + 1) buf evs).1 = wire :: t := by
  cases evs with
  | nil => exact ⟨[], rfl⟩
  | cons ev evs =>
    cases ev with
    | timeout => exact ⟨_, rfl⟩
    | pkt dg =>
      rw [runRead]
      split
      · split
        · split
          · exact ⟨_, rfl⟩
          · exact ⟨[], rfl⟩
        · exact ⟨_, rfl⟩
      · split
        · exact ⟨[], rfl⟩
        · exact ⟨_, rfl⟩

set_option maxRecDepth 100000 in
/-- C4 (counterexample): in `AwaitAck`, receiving a stray Ack (wrong block) —
or a datagram that decodes as neither Ack nor Error — does NOT leave the
session merely waiting: with retry budget 2 and a single stray event the
session transmits the current Data packet twice, refuting "without
retransmitting the current DataPacket". -/
theorem c4_stray_causes_retransmit :
    (runReadEntry 2 [mkB 7] [.pkt (ackMarshal 5)]).1 =
      [(dataMarshal (DataP.mk 0 [mkB 7])).2, (dataMarshal (DataP.mk 0 [mkB 7])).2] ∧
    (runReadEntry 2 [mkB 7] [.pkt [mkB 9, mkB 9, mkB 9, mkB 9]]).1 =
      [(dataMarshal (DataP.mk 0 [mkB 7])).2, (dataMarshal (DataP.mk 0 [mkB 7])).2] ∧
    [(dataMarshal (DataP.mk 0 [mkB 7])).2, (dataMarshal (DataP.mk 0 [mkB 7])).2] ≠
      [(dataMarshal (DataP.mk 0 [mkB 7])).2] := by decide

/-- C4 (amended): in `AwaitAck`, a stray Ack (valid but wrong block number) or
a datagram decoding as neither Ack nor Error consumes one retry attempt and
causes the current DataPacket to be retransmitted: the received event's
iteration ends, and the next retry iteration (when attempts remain) begins by
writing the same wire bytes again. -/
theorem c4_stray_consumes_retry (R : Nat) (d : DataP) (wire buf dg : List Byte)
    (i : Nat) (evs : List RecvEvent)
    (h : (∃ a, ackUnmarshal (updateBuf buf dg) = some a ∧ a ≠ d.block) ∨
      (ackUnmarshal (updateBuf buf dg) = none ∧
       errUnmarshal (updateBuf buf dg) = none)) :
    (runRead R d wire (i + 2) buf (.pkt dg :: evs)).1 =
      wire :: (runRead R d wire (i + 1) (updateBuf buf dg) evs).1 ∧
    ∃ t, (runRead R d wire (i + 1) (updateBuf buf dg) evs).1 = wire :: t := by
  refine ⟨?_, runRead_sends_first R d wire (updateBuf buf dg) i evs⟩
  conv_lhs => rw [runRead]
  rcases h with ⟨a, hA, hne⟩ | ⟨hA, hE⟩
  · simp only [hA, if_neg hne]
  · simp only [hA, hE]

set_option maxRecDepth 100000 in
/-- C4 witness: the amended claim at a concrete stray Ack. -/
theorem c4_stray_consumes_retry_witness :
    ((∃ a, ackUnmarshal (updateBuf zeroBuf (ackMarshal 5)) = some a ∧ a ≠ 1) ∨
      (ackUnmarshal (updateBuf zeroBuf (ackMarshal 5)) = none ∧
       errUnmarshal (updateBuf zeroBuf (ackMarshal 5)) = none)) ∧
    ((runRead 2 (DataP.mk 1 []) [mkB 0, mkB 3, mkB 0, mkB 1, mkB 7] 2 zeroBuf
        [.pkt (ackMarshal 5)]).1 =
      [mkB 0, mkB 3, mkB 0, mkB 1, mkB 7] ::
        (runRead 2 (DataP.mk 1 []) [mkB 0, mkB 3, mkB 0, mkB 1, mkB 7] 1
          (updateBuf zeroBuf (ackMarshal 5)) []).1 ∧
     ∃ t, (runRead 2 (DataP.mk 1 []) [mkB 0, mkB 3, mkB 0, mkB 1, mkB 7] 1
        (updateBuf zeroBuf (ackMarshal 5)) []).1 =
      [mkB 0, mkB 3, mkB 0, mkB 1, mkB 7] :: t) :=
  ⟨Or.inl ⟨5, by decide, by decide⟩,
    c4_stray_consumes_retry 2 (DataP.mk 1 []) [mkB 0, mkB 3, mkB 0, mkB 1, mkB 7]
      zeroBuf (ackMarshal 5) 0 [] (Or.inl ⟨5, by decide, by decide⟩)⟩

theorem runRead_all_timeouts (R : Nat) (d : DataP) (wire buf : List Byte) :
    ∀ i m, i ≤ m →
    runRead R d wire i buf (List.replicate m RecvEvent.timeout) =
      (List.replicate i wire, .retriesExhausted) := by
  intro i
  induction i with
  | zero => intro m hm; rw [runRead]; rfl
  | succ i ih =>
    intro m hm
    match m, hm with
    | m + 1, _ =>
      rw [List.replicate_succ, runRead]
      rw [ih m (by omega)]
      simp [List.replicate_succ]

/-- C5: a Download session whose awaited Ack never arrives (every wait times
out) transmits exactly R byte-identical copies of the marshalled first Data
packet — R being the retry budget — then gives up having sent nothing
further. -/
theorem c5_retry_bound (R m : Nat) (p : List Byte) (h : R ≤ m) :
    runReadEntry R p (List.replicate m RecvEvent.timeout) =
      (List.replicate R (dataMarshal (DataP.mk 0 p)).2, .retriesExhausted) := by
  unfold runReadEntry runReadFrom
  exact runRead_all_timeouts R _ _ _ R m h

/-- C5 witness: retry budget 3 with three dropped Acks sends exactly three
identical copies of the block-1 Data packet. -/
theorem c5_retry_bound_witness :
    3 ≤ 3 ∧
    runReadEntry 3 [mkB 7] (List.replicate 3 RecvEvent.timeout) =
      (List.replicate 3 (dataMarshal (DataP.mk 0 [mkB 7])).2,
        .retriesExhausted) :=
  ⟨by decide, c5_retry_bound 3 3 [mkB 7] (by decide)⟩

theorem readReq_roundtrip (q : ReadReq) (hf : ∀ c ∈ q.filename, c.val ≠ 0)
    (hm : ∀ c ∈ q.mode, c.val ≠ 0) (hne : q.mode ≠ [])
    (hoct : lowerBytes q.mode = octetB) :
    readReqUnmarshal (readReqMarshal q) = .ok q := by
  unfold readReqMarshal
  rw [if_neg hne]
  have hbuf : u16be 1 ++ q.filename ++ [mkB 0] ++ q.mode ++ [mkB 0] =
      u16be 1 ++ (q.filename ++ (mkB 0 :: (q.mode ++ mkB 0 :: []))) := by
    simp [List.append_assoc]
  rw [hbuf]
  simp [readReqUnmarshal, readU16_u16be 1 (by norm_num),
    readString0_append _ _ hf, readString0_append _ _ hm,
    trimRight0_append _ hf, trimRight0_append _ hm,
    hoct, hne, List.length_eq_zero]

theorem ack_roundtrip (b : Nat) (hb : b < 65536) :
    ackUnmarshal (ackMarshal b) = some b := by
  have h2 := readU16_u16be b hb []
  rw [List.append_nil] at h2
  simp [ackUnmarshal, ackMarshal, readU16_u16be 4 (by norm_num), h2]

theorem err_roundtrip (e : ErrP) (hc : e.code < 65536)
    (hm : ∀ c ∈ e.msg, c.val ≠ 0) :
    errUnmarshal (errMarshal e) = some e := by
  have hbuf : u16be 5 ++ u16be e.code ++ e.msg ++ [mkB 0] =
      u16be 5 ++ (u16be e.code ++ (e.msg ++ mkB 0 :: [])) := by
    simp [List.append_assoc]
  unfold errMarshal
  rw [hbuf]
  simp [errUnmarshal, readU16_u16be 5 (by norm_num), readU16_u16be e.code hc,
    readString0_append _ _ hm, trimRight0_append _ hm]

theorem data_roundtrip (dp : DataP) (hb : dp.block < 65536)
    (hp : dp.payload.length ≤ 512) :
    (dataMarshal dp).1.block = (dp.block + 1) % 65536 ∧
    dataUnmarshal (dataMarshal dp).2 =
      some ((dp.block + 1) % 65536, dp.payload) := by
  refine ⟨rfl, ?_⟩
  have hwire : (dataMarshal dp).2 =
      mkB 0 :: mkB 3 :: mkB (((dp.block + 1) % 65536) / 256) ::
        mkB ((dp.block + 1) % 65536) :: dp.payload := by
    simp [dataMarshal, u16be, BlockSize, List.take_of_length_le hp]
  rw [hwire]
  have hb2 : (dp.block + 1) % 65536 < 65536 := Nat.mod_lt _ (by norm_num)
  have hlen : ¬((mkB 0 :: mkB 3 :: mkB (((dp.block + 1) % 65536) / 256) ::
      mkB ((dp.block + 1) % 65536) :: dp.payload).length < 4 ∨
      516 < (mkB 0 :: mkB 3 :: mkB (((dp.block + 1) % 65536) / 256) ::
      mkB ((dp.block + 1) % 65536) :: dp.payload).length) := by
    simp
    omega
  unfold dataUnmarshal DatagramSize
  rw [if_neg hlen]
  simp [mkB]
  omega

/-- C1 (amended): round-trips hold for the encoders the code actually has, in
the form the code gives them.  A ReadRequest with NUL-free fields and a
nonempty mode lowercasing to "octet" round-trips; Ack and Error packets with
in-range values and NUL-free message round-trip; for Data, the encoder first
increments the packet's block counter (mod 2^16), so decoding the encoded
bytes returns the post-encode packet — block number `(b+1) % 65536`, not `b` —
with the payload (≤ 512 bytes) intact.  The repository contains no
WriteRequest encoder, so no WriteRequest round-trip is statable. -/
theorem c1_roundtrip_amended :
    (∀ q : ReadReq, (∀ c ∈ q.filename, c.val ≠ 0) → (∀ c ∈ q.mode, c.val ≠ 0) →
      q.mode ≠ [] → lowerBytes q.mode = octetB →
      readReqUnmarshal (readReqMarshal q) = .ok q) ∧
    (∀ b : Nat, b < 65536 → ackUnmarshal (ackMarshal b) = some b) ∧
    (∀ e : ErrP, e.code < 65536 → (∀ c ∈ e.msg, c.val ≠ 0) →
      errUnmarshal (errMarshal e) = some e) ∧
    (∀ dp : DataP, dp.block < 65536 → dp.payload.length ≤ 512 →
      (dataMarshal dp).1.block = (dp.block + 1) % 65536 ∧
      dataUnmarshal (dataMarshal dp).2 =
        some ((dp.block + 1) % 65536, dp.payload)) :=
  ⟨readReq_roundtrip, ack_roundtrip, err_roundtrip, data_roundtrip⟩

set_option maxRecDepth 100000 in
/-- C1 witness: the amended round-trips at concrete packets, including the
wraparound block 65535 for Data. -/
theorem c1_roundtrip_amended_witness :
    readReqUnmarshal (readReqMarshal (ReadReq.mk fnF mOctet)) =
      .ok (ReadReq.mk fnF mOctet) ∧
    ackUnmarshal (ackMarshal 65535) = some 65535 ∧
    errUnmarshal (errMarshal (ErrP.mk 4 fnF)) = some (ErrP.mk 4 fnF) ∧
    ((dataMarshal (DataP.mk 65535 [mkB 7])).1.block = (65535 + 1) % 65536 ∧
     dataUnmarshal (dataMarshal (DataP.mk 65535 [mkB 7])).2 =
       some ((65535 + 1) % 65536, [mkB 7])) :=
  ⟨c1_roundtrip_amended.1 _ (by decide) (by decide) (by decide) (by decide),
   c1_roundtrip_amended.2.1 65535 (by decide),
   c1_roundtrip_amended.2.2.1 _ (by decide) (by decide),
   c1_roundtrip_amended.2.2.2 _ (by decide) (by decide)⟩

theorem ackUnmarshal_updateBuf (buf : List Byte) (x : Nat) (hx : x < 65536) :
    ackUnmarshal (updateBuf buf (ackMarshal x)) = some x := by
  have h1 : updateBuf buf (ackMarshal x) = u16be 4 ++ (u16be x ++ buf.drop 4) := by
    simp [updateBuf, ackMarshal, u16be, DatagramSize]
  rw [h1]
  simp [ackUnmarshal, readU16_u16be 4 (by norm_num), readU16_u16be x hx]

theorem dataMarshal_mk_fst (b : Nat) (p : List Byte) :
    (dataMarshal (DataP.mk b p)).1 =
      DataP.mk ((b + 1) % 65536) (p.drop BlockSize) := rfl

theorem dataMarshal_mk_snd (b : Nat) (p : List Byte) :
    (dataMarshal (DataP.mk b p)).2 =
      u16be 3 ++ u16be ((b + 1) % 65536) ++ p.take BlockSize := rfl

theorem runRead_ack_match (R : Nat) (d : DataP) (wire buf : List Byte) (i : Nat)
    (dg : List Byte) (evs : List RecvEvent)
    (hA : ackUnmarshal (updateBuf buf dg) = some d.block) :
    runRead R d wire (i + 1) buf (.pkt dg :: evs) =
      if wire.length = DatagramSize then
        (wire :: (runRead R (dataMarshal d).1 (dataMarshal d).2 R
            (updateBuf buf dg) evs).1,
         (runRead R (dataMarshal d).1 (dataMarshal d).2 R
            (updateBuf buf dg) evs).2)
      else ([wire], .done) := by
  conv_lhs => rw [runRead]
  simp only [hA, if_true]

theorem runReadFrom_allAck (R : Nat) (hR : 1 ≤ R) :
    ∀ m b p buf, b < 65536 → p.length / 512 = m →
    runReadFrom R (DataP.mk b p) buf (ackEventsAux (m + 1) b) =
      (dataWires (m + 1) b p, .done) := by
  obtain ⟨R', rfl⟩ : ∃ R', R = R' + 1 := ⟨R - 1, by omega⟩
  intro m
  induction m with
  | zero =>
    intro b p buf hb hm
    have hlt : p.length < 512 := by omega
    have hshort : ¬((u16be 3 ++ u16be ((b + 1) % 65536) ++
        p.take BlockSize).length = DatagramSize) := by
      simp [u16be, BlockSize, DatagramSize]
      omega
    have hAck : ackUnmarshal (updateBuf buf (ackMarshal ((b + 1) % 65536))) =
        some ((DataP.mk ((b + 1) % 65536) (p.drop BlockSize)).block) :=
      ackUnmarshal_updateBuf buf _ (Nat.mod_lt _ (by norm_num))
    simp only [runReadFrom, ackEventsAux, dataMarshal_mk_fst, dataMarshal_mk_snd]
    rw [runRead_ack_match _ _ _ _ _ _ _ hAck]
    rw [if_neg hshort]
    rfl
  | succ m ih =>
    intro b p buf hb hm
    have hge : 512 ≤ p.length := by omega
    have hfull : (u16be 3 ++ u16be ((b + 1) % 65536) ++
        p.take BlockSize).length = DatagramSize := by
      simp [u16be, BlockSize, DatagramSize]
      omega
    have hAck : ackUnmarshal (updateBuf buf (ackMarshal ((b + 1) % 65536))) =
        some ((DataP.mk ((b + 1) % 65536) (p.drop BlockSize)).block) :=
      ackUnmarshal_updateBuf buf _ (Nat.mod_lt _ (by norm_num))
    simp only [runReadFrom, ackEventsAux, dataMarshal_mk_fst, dataMarshal_mk_snd]
    rw [runRead_ack_match _ _ _ _ _ _ _ hAck]
    rw [if_pos hfull]
    simp only [dataMarshal_mk_fst, dataMarshal_mk_snd]
    have hnext := ih ((b + 1) % 65536) (p.drop BlockSize)
      (updateBuf buf (ackMarshal ((b + 1) % 65536)))
      (Nat.mod_lt _ (by norm_num))
      (by simp [BlockSize]; omega)
    simp only [runReadFrom, ackEventsAux, dataMarshal_mk_fst,
      dataMarshal_mk_snd] at hnext
    rw [hnext]
    rfl

theorem dataWires_length : ∀ (k b : Nat) (p : List Byte),
    (dataWires k b p).length = k := by
  intro k
  induction k with
  | zero => intro b p; rfl
  | succ k ih => intro b p; simp [dataWires, ih]

theorem dataWires_last : ∀ (m b : Nat) (p : List Byte), p.length / 512 = m →
    (dataWires (m + 1) b p).getLast?.map List.length =
      some (4 + p.length % 512) := by
  intro m
  induction m with
  | zero =>
    intro b p hm
    have hlt : p.length < 512 := by omega
    simp [dataWires, u16be, BlockSize]
    omega
  | succ m ih =>
    intro b p hm
    have h1 : dataWires (m + 1 + 1) b p =
        (u16be 3 ++ u16be ((b + 1) % 65536) ++ p.take BlockSize) ::
          dataWires (m + 1) ((b + 1) % 65536) (p.drop BlockSize) := rfl
    have h2 : dataWires (m + 1) ((b + 1) % 65536) (p.drop BlockSize) =
        (u16be 3 ++ u16be (((b + 1) % 65536 + 1) % 65536) ++
          (p.drop BlockSize).take BlockSize) ::
          dataWires m (((b + 1) % 65536 + 1) % 65536)
            ((p.drop BlockSize).drop BlockSize) := rfl
    have hdl : (p.drop BlockSize).length / 512 = m := by
      simp [BlockSize]
      omega
    have hmod : (p.drop BlockSize).length % 512 = p.length % 512 := by
      simp [BlockSize]
      omega
    rw [h1, h2, List.getLast?_cons_cons, ← h2, ih _ _ hdl, hmod]

theorem dataWires_dropLast_full : ∀ (m b : Nat) (p : List Byte),
    p.length / 512 = m →
    ∀ w ∈ (dataWires (m + 1) b p).dropLast, w.length = 516 := by
  intro m
  induction m with
  | zero =>
    intro b p hm w hw
    simp [dataWires] at hw
  | succ m ih =>
    intro b p hm w hw
    have hge : 512 ≤ p.length := by omega
    have h1 : dataWires (m + 1 + 1) b p =
        (u16be 3 ++ u16be ((b + 1) % 65536) ++ p.take BlockSize) ::
          dataWires (m + 1) ((b + 1) % 65536) (p.drop BlockSize) := rfl
    have h2 : dataWires (m + 1) ((b + 1) % 65536) (p.drop BlockSize) =
        (u16be 3 ++ u16be (((b + 1) % 65536 + 1) % 65536) ++
          (p.drop BlockSize).take BlockSize) ::
          dataWires m (((b + 1) % 65536 + 1) % 65536)
            ((p.drop BlockSize).drop BlockSize) := rfl
    rw [h1, h2, List.dropLast_cons₂, ← h2] at hw
    rcases List.mem_cons.mp hw with h | h
    · subst h
      simp [u16be, BlockSize]
      omega
    · exact ih _ _ (by simp [BlockSize]; omega) w h

/-- C6: in a fully acknowledged download of an N-byte payload, the session
sends exactly `N / 512 + 1` Data packets and completes; every packet before
the last carries a full 512-byte payload (516 wire bytes), the final packet's
payload length is `N mod 512` (strictly less than 512) — in particular, when
512 divides N the final packet is an empty-payload Data packet following the
`N / 512` full blocks — and that short final block itself ends the session. -/
theorem c6_download_termination (R : Nat) (hR : 1 ≤ R) (p : List Byte) :
    (runReadEntry R p (ackEvents p)).2 = .done ∧
    (runReadEntry R p (ackEvents p)).1.length = p.length / 512 + 1 ∧
    (∀ w ∈ (runReadEntry R p (ackEvents p)).1.dropLast, w.length = 516) ∧
    (runReadEntry R p (ackEvents p)).1.getLast?.map List.length =
      some (4 + p.length % 512) ∧
    p.length % 512 < 512 ∧
    (512 ∣ p.length →
      (runReadEntry R p (ackEvents p)).1.getLast?.map List.length = some 4) := by
  have hrun : runReadEntry R p (ackEvents p) =
      (dataWires (p.length / 512 + 1) 0 p, .done) := by
    unfold runReadEntry ackEvents
    exact runReadFrom_allAck R hR (p.length / 512) 0 p zeroBuf (by norm_num) rfl
  rw [hrun]
  refine ⟨rfl, dataWires_length _ _ _, dataWires_dropLast_full _ _ _ rfl,
    dataWires_last _ _ _ rfl, Nat.mod_lt _ (by norm_num), ?_⟩
  intro hdvd
  rw [dataWires_last _ _ _ rfl]
  simp
  omega

/-- C6 witness: the claim at retry budget 3 and a concrete 520-byte payload. -/
theorem c6_download_termination_witness :
    1 ≤ 3 ∧
    ((runReadEntry 3 wp520 (ackEvents wp520)).2 = .done ∧
     (runReadEntry 3 wp520 (ackEvents wp520)).1.length = wp520.length / 512 + 1 ∧
     (∀ w ∈ (runReadEntry 3 wp520 (ackEvents wp520)).1.dropLast,
        w.length = 516) ∧
     (runReadEntry 3 wp520 (ackEvents wp520)).1.getLast?.map List.length =
       some (4 + wp520.length % 512) ∧
     wp520.length % 512 < 512 ∧
     (512 ∣ wp520.length →
       (runReadEntry 3 wp520 (ackEvents wp520)).1.getLast?.map List.length =
         some 4)) :=
  ⟨by decide, c6_download_termination 3 (by decide) wp520⟩

/-- C9: block numbers are 16-bit values starting at 1 — the first packet of
every download carries block number 1 — and advancing past block 65535 wraps
to 0 without ending the session: at block counter 65535 with at least a full
block of payload left, the session sends the block-0 packet and, once that is
acked, continues by sending the block-1 packet (it has not completed). -/
theorem c9_block_wraparound (R' : Nat) (p : List Byte) (h512 : 512 ≤ p.length) :
    (dataMarshal (DataP.mk 65535 p)).1.block = 0 ∧
    (runReadFrom (R' + 1) (DataP.mk 65535 p) zeroBuf [.pkt (ackMarshal 0)]).1 =
      [u16be 3 ++ u16be 0 ++ p.take BlockSize,
       u16be 3 ++ u16be 1 ++ (p.drop BlockSize).take BlockSize] ∧
    (runReadFrom (R' + 1) (DataP.mk 65535 p) zeroBuf [.pkt (ackMarshal 0)]).2 =
      ReadOutcome.starved ∧
    ∀ evs, (runReadEntry (R' + 1) p evs).1.head? =
      some (u16be 3 ++ u16be 1 ++ p.take BlockSize) := by
  have hfull : (u16be 3 ++ u16be ((65535 + 1) % 65536) ++
      p.take BlockSize).length = DatagramSize := by
    simp [u16be, BlockSize, DatagramSize]
    omega
  have hAck : ackUnmarshal (updateBuf zeroBuf (ackMarshal 0)) =
      some ((DataP.mk ((65535 + 1) % 65536) (p.drop BlockSize)).block) :=
    ackUnmarshal_updateBuf zeroBuf 0 (by norm_num)
  have hrun : runReadFrom (R' + 1) (DataP.mk 65535 p) zeroBuf
      [.pkt (ackMarshal 0)] =
      ([u16be 3 ++ u16be 0 ++ p.take BlockSize,
        u16be 3 ++ u16be 1 ++ (p.drop BlockSize).take BlockSize],
       ReadOutcome.starved) := by
    simp only [runReadFrom, dataMarshal_mk_fst, dataMarshal_mk_snd]
    rw [runRead_ack_match _ _ _ _ _ _ _ hAck]
    rw [if_pos hfull]
    simp only [dataMarshal_mk_fst, dataMarshal_mk_snd]
    rfl
  refine ⟨by simp [dataMarshal_mk_fst], by rw [hrun], by rw [hrun], ?_⟩
  intro evs
  obtain ⟨t, ht⟩ := runRead_sends_first (R' + 1)
    (DataP.mk ((0 + 1) % 65536) (p.drop BlockSize))
    (u16be 3 ++ u16be ((0 + 1) % 65536) ++ p.take BlockSize) zeroBuf R' evs
  unfold runReadEntry runReadFrom
  simp only [dataMarshal_mk_fst, dataMarshal_mk_snd]
  rw [ht]
  rfl

set_option maxRecDepth 100000 in
/-- C9 witness: the claim at retry budget 1 and a concrete 512-byte payload. -/
theorem c9_block_wraparound_witness :
    512 ≤ wp512.length ∧
    ((dataMarshal (DataP.mk 65535 wp512)).1.block = 0 ∧
     (runReadFrom (0 + 1) (DataP.mk 65535 wp512) zeroBuf
        [.pkt (ackMarshal 0)]).1 =
       [u16be 3 ++ u16be 0 ++ wp512.take BlockSize,
        u16be 3 ++ u16be 1 ++ (wp512.drop BlockSize).take BlockSize] ∧
     (runReadFrom (0 + 1) (DataP.mk 65535 wp512) zeroBuf
        [.pkt (ackMarshal 0)]).2 = ReadOutcome.starved ∧
     ∀ evs, (runReadEntry (0 + 1) wp512 evs).1.head? =
       some (u16be 3 ++ u16be 1 ++ wp512.take BlockSize)) :=
  ⟨by decide, c9_block_wraparound 0 wp512 (by decide)⟩

end TFTP
